import Mathlib

/-!
Shallow embedding of the discodrome per-guild audio player
(`src/player.py`, `src/extensions/music.py`), with theorems settling the
behavioural claims about queue handling, autoplay, voice connection,
stop/idle-timeout commands and shuffling.

External collaborators (the Subsonic catalog, the Discord voice transport
and the UI message layer) are modelled as an explicit environment record
and an event trace: every user-visible message, catalog request and
transport action an operation performs is recorded as an `Ev` in the order
the code performs it.
-/

namespace Discodrome

/-- Song value object (`subsonic.Song`); only the fields the player logic
reads are modelled: the catalog id plus display metadata. -/
structure Song where
  song_id : String
  title : String
  artist : String
deriving DecidableEq, Repr

/-- Autoplay mode enumeration (`data.AutoplayMode`). -/
inductive AutoplayMode
  | NONE
  | RANDOM
  | SIMILAR
deriving DecidableEq, Repr

/-- The per-guild player data record (the `_data` dict of `player.Player`):
`current-song`, `current-position`, `queue`. -/
structure PlayerState where
  current_song : Option Song
  current_position : Nat
  queue : List Song
deriving DecidableEq, Repr

/-- The empty player data record (the contents of the module-level
`_default_data` dict in `player.py`). -/
def emptyPlayerData : PlayerState := ⟨none, 0, []⟩

/-! ## Heap model for `Player.__init__` aliasing

`player.py` defines one module-level dict `_default_data` and
`Player.__init__` executes `self._data = _default_data`: a reference
assignment, not a copy.  To make the aliasing observable we model the
Python heap as a store of data records addressed by `Nat`; the module-level
`_default_data` dict lives at address 0 and is allocated once, when the
module loads. -/

/-- The heap of player-data dicts; `cells.get i` is the dict at address `i`. -/
structure Store where
  cells : List PlayerState
deriving Repr

/-- Address of the module-level `_default_data` dict. -/
def defaultDataAddr : Nat := 0

/-- The store right after module load: only `_default_data` exists. -/
def initStore : Store := ⟨[emptyPlayerData]⟩

/-- A `Player` object: it holds a reference (`self._data`) to a data record
in the store. -/
structure Player where
  dataAddr : Nat
deriving DecidableEq, Repr

/-- `Player.__init__`: `self._data = _default_data` binds the new player's
`_data` to the one module-level dict; no fresh dict is allocated. -/
def Player.init : Player := ⟨defaultDataAddr⟩

/-- Read the data record a player's `_data` refers to. -/
def Store.readData (st : Store) (a : Nat) : PlayerState :=
  st.cells.getD a emptyPlayerData

/-- Overwrite the data record at address `a`. -/
def Store.writeData (st : Store) (a : Nat) (d : PlayerState) : Store :=
  ⟨st.cells.set a d⟩

/-- `player.queue` (property getter). -/
def Player.getQueue (p : Player) (st : Store) : List Song :=
  (st.readData p.dataAddr).queue

/-- `player.current_song` (property getter). -/
def Player.getCurrentSong (p : Player) (st : Store) : Option Song :=
  (st.readData p.dataAddr).current_song

/-- `player.queue.append(s)`: in-place mutation of the list held in the
referenced data record. -/
def Player.queueAppend (p : Player) (s : Song) (st : Store) : Store :=
  let d := st.readData p.dataAddr
  st.writeData p.dataAddr { d with queue := d.queue ++ [s] }

/-- `player.current_song = s` (property setter). -/
def Player.setCurrentSong (p : Player) (s : Option Song) (st : Store) : Store :=
  let d := st.readData p.dataAddr
  st.writeData p.dataAddr { d with current_song := s }

/-! ## Event-trace model of the player operations -/

/-- Observable effects of a player operation, in program order: UI messages
sent to the guild channel, catalog API requests, and transport actions. -/
inductive Ev
  | uiBotNotInVoice
  | uiAlreadyPlaying
  | uiNowPlaying (s : Song)
  | uiPlaybackEnded
  | uiAutoplayFailed
  | uiStreamError
  | apiRandom
  | apiSimilar (id : Option String)
  | startStream (s : Song)
deriving DecidableEq, Repr

/-- Environment a player operation runs against: the guild's autoplay
setting, the catalog's answers, and the voice client's status.
`similar_songs` receives the exact `song_id` argument the code passes to
`get_similar_songs` (an `Option`, since Python would pass `None` through). -/
structure Env where
  hasVC : Bool
  is_connected : Bool
  is_playing : Bool
  stream_ok : Bool
  autoplay_mode : AutoplayMode
  random_songs : List Song
  similar_songs : Option String → List Song

/-- `Player.stream_track` (`player.py` lines 68-166), as its trace of
observable effects.  Guards in program order: missing voice client,
disconnected client, already-playing transport, stream-URL failure (an
`APIError` or empty URL behaves the same through this function); otherwise
the track starts streaming.  The `voice_client.play` retry loop
(3 attempts, 1 time unit apart) is entered only on a
`discord.ClientException`; we model the play call succeeding, which is the
case every claim here concerns. -/
def stream_track (env : Env) (song : Song) : List Ev :=
  if !env.hasVC then [.uiBotNotInVoice]
  else if !env.is_connected then [.uiStreamError]
  else if env.is_playing then [.uiAlreadyPlaying]
  else if !env.stream_ok then [.uiStreamError]
  else [.startStream song]

/-- `Player.handle_autoplay` (`player.py` lines 169-207).  Returns the
`bool` result together with the updated player state and the effect trace.
When the queue is non-empty or the mode is `NONE` it returns `False` at
once.  A missing `prev_song_id` downgrades the mode to `RANDOM`.  An
`APIError` from the catalog leaves `songs` empty and falls through to the
failure message, so it is modelled by the catalog returning `[]`. -/
def handle_autoplay (env : Env) (prev_song_id : Option String)
    (p : PlayerState) : Bool × PlayerState × List Ev :=
  if p.queue ≠ [] ∨ env.autoplay_mode = AutoplayMode.NONE then (false, p, [])
  else
    let mode := if prev_song_id.isNone then AutoplayMode.RANDOM
                else env.autoplay_mode
    let fetch : List Song × List Ev :=
      match mode with
      | .NONE => ([], [])
      | .RANDOM => (env.random_songs, [.apiRandom])
      | .SIMILAR => (env.similar_songs prev_song_id, [.apiSimilar prev_song_id])
    match fetch.1 with
    | [] => (false, p, fetch.2 ++ [.uiAutoplayFailed])
    | s :: _ => (true, { p with queue := p.queue ++ [s] }, fetch.2)

/-- `Player.play_audio_queue` (`player.py` lines 210-243).  The Python code
recurses after a successful autoplay; since autoplay only ever inserts into
an empty queue, the recursive call finds a non-empty queue and cannot
recurse again, so the recursion depth is bounded and a fuel parameter of 2
already reproduces every reachable execution.  Guards in program order:
missing voice client, already-playing transport; then either pop-and-stream
or the empty-queue autoplay path, which clears `current_song` (capturing
its id first) before the autoplay decision. -/
def play_audio_queue : Nat → Env → PlayerState → PlayerState × List Ev
  | 0, _, p => (p, [])
  | fuel + 1, env, p =>
    if !env.hasVC then (p, [.uiBotNotInVoice])
    else if env.is_playing then (p, [])
    else
      match p.queue with
      | song :: rest =>
        let p' : PlayerState := { p with queue := rest, current_song := some song }
        (p', .uiNowPlaying song :: stream_track env song)
      | [] =>
        let prev : Option String := p.current_song.map Song.song_id
        let p' : PlayerState := { p with current_song := none }
        match handle_autoplay env prev p' with
        | (true, p2, evs) =>
          let r := play_audio_queue fuel env p2
          (r.1, evs ++ r.2)
        | (false, p2, evs) => (p2, evs ++ [.uiPlaybackEnded])

/-- True when the trace holds a similarity-catalog request. -/
def hasSimilarReq (evs : List Ev) : Bool :=
  evs.any fun e => match e with | .apiSimilar _ => true | _ => false

/-- True when the trace holds a random-catalog request. -/
def hasRandomReq (evs : List Ev) : Bool :=
  evs.any fun e => match e with | .apiRandom => true | _ => false

/-! ## The `/stop` command -/

/-- Result of `MusicCog.stop` on the player: the cleared current track and
the queue as the command leaves it.  Because the code executes
`player.queue.insert(0, player.current_song)` after `player.current_song`
has already been set to `None`, the queue it produces may contain `None`
entries, so its element type is `Option Song`. -/
structure StopResult where
  current_song : Option Song
  queue : List (Option Song)
deriving DecidableEq, Repr

/-- `MusicCog.stop` (`music.py` lines 188-214), restricted to its effect on
the player state, assuming a connected voice client (the command returns
early otherwise).  Program order: `voice_client.stop()` (transport only),
`player.current_song = None`, then
`player.queue.insert(0, player.current_song)` — which reads the value just
cleared and therefore prepends `None` to the queue. -/
def stopCommand (p : PlayerState) : StopResult :=
  let cur : Option Song := none
  { current_song := cur, queue := cur :: p.queue.map some }

/-! ## `MusicCog.get_voice_client` -/

/-- Outcome of one `channel.connect` call. -/
inductive ConnectOutcome
  | success
  | timeout
  | clientError
deriving DecidableEq, Repr

/-- Observable effects of `get_voice_client`: timed delays, connect
attempts against the transport and user-visible error messages. -/
inductive VEv
  | sleep (n : Nat)
  | connectAttempt
  | errUserNotInVoice
  | errMissingPerms
  | errTimeout
  | errClient
deriving DecidableEq, Repr

/-- `MusicCog.get_voice_client` (`music.py` lines 25-69).  `existing` says
whether the guild already has a voice client; `sched i` is the outcome the
transport would give the `i`-th connect call.  When no client exists and
`should_connect` holds, the code checks the user's channel and the bot's
permissions, sleeps 1 time unit, then performs a single
`channel.connect(timeout=10.0)`; a timeout or client exception is reported
to the user and `None` is returned with no further attempt. -/
def get_voice_client (existing : Bool) (should_connect : Bool)
    (userInVoice : Bool) (canConnect : Bool) (canSpeak : Bool)
    (sched : Nat → ConnectOutcome) : Option Unit × List VEv :=
  if existing then (some (), [])
  else if should_connect then
    if !userInVoice then (none, [.errUserNotInVoice])
    else if !(canConnect && canSpeak) then (none, [.errMissingPerms])
    else
      match sched 0 with
      | .success => (some (), [.sleep 1, .connectAttempt])
      | .timeout => (none, [.sleep 1, .connectAttempt, .errTimeout])
      | .clientError => (none, [.sleep 1, .connectAttempt, .errClient])
  else (none, [])

/-- Number of connect attempts recorded in a trace. -/
def countAttempts (evs : List VEv) : Nat :=
  (evs.filter fun e => match e with | .connectAttempt => true | _ => false).length

/-! ## The playback-finished callback -/

/-- List-level substring test, used to model Python's
`"..." in str(error)`. -/
def containsSub (needle hay : List Char) : Bool :=
  hay.tails.any fun t => needle.isPrefixOf t

/-- Models `"Not connected to voice" in str(error)` from
`playback_finished`. -/
def errIsVoiceLost (e : String) : Bool :=
  containsSub "Not connected to voice".toList e.toList

/-- Observable effects of the `playback_finished` callback: a reconnect
attempt against the transport, or scheduling the next `play_audio_queue`
cycle.  The callback sends no UI message in any branch (it only logs). -/
inductive PFEv
  | reconnectAttempt
  | scheduleAdvance
deriving DecidableEq, Repr

/-- The `playback_finished` callback (`player.py` lines 112-139).  On an
error whose text mentions the lost voice connection it attempts a single
reconnect (when the invoking user is still in a voice channel and the
client is disconnected) and then returns; on any error it returns without
scheduling anything.  Without an error it schedules the next
`play_audio_queue` cycle provided the voice client is still connected. -/
def playback_finished (error : Option String) (userInVoice : Bool)
    (hasVC : Bool) (vcConnected : Bool) : List PFEv :=
  match error with
  | some e =>
    if errIsVoiceLost e then
      if userInVoice && hasVC && !vcConnected then [.reconnectAttempt] else []
    else []
  | none => if hasVC && vcConnected then [.scheduleAdvance] else []

/-! ## Idle-channel timeout -/

/-- Result of the voice-state-update handler: the resulting player state,
whether the bot disconnected, and whether the 10-time-unit grace sleep
happened. -/
structure IdleResult where
  player : PlayerState
  disconnected : Bool
  waited : Bool
deriving DecidableEq, Repr

/-- `MusicCog.on_voice_state_update` (`music.py` lines 443-469).
`members0` is the number of members (bot included) in the bot's channel
when the event fires; `members10` the number when the 10-time-unit grace
sleep elapses.  A count of 1 means the bot is alone: human occupancy is
zero.  If the bot has no voice client the handler returns at once; if it is
alone it waits out the grace period and, when still alone, disconnects and
clears the queue and the current song. -/
def on_voice_state_update (hasVC : Bool) (members0 members10 : Nat)
    (p : PlayerState) : IdleResult :=
  if !hasVC then ⟨p, false, false⟩
  else if members0 = 1 then
    if members10 = 1 then
      ⟨{ p with queue := [], current_song := none }, true, true⟩
    else ⟨p, false, true⟩
  else ⟨p, false, false⟩

/-! ## The `/shuffle` command -/

/-- One run of the shuffle loop in `MusicCog.shuffle` (`music.py` lines
350-360): `cs` is the sequence of values `randint(0, len(temporaryqueue)-1)`
returned by the RNG, one per iteration; each iteration pops the chosen
index off the temporary queue and appends it to the result. -/
def fyShuffle {α : Type} : List Nat → List α → List α
  | [], _ => []
  | c :: cs, q =>
    match q[c]? with
    | some a => a :: fyShuffle cs (q.eraseIdx c)
    | none => []

/-- Validity of an RNG-output sequence for a queue of length `n`: the loop
draws exactly `n` values and the `i`-th draw is `randint(0, n-1-i)`, hence
strictly below the remaining length. -/
def validChoices : List Nat → Nat → Bool
  | [], 0 => true
  | [], _ + 1 => false
  | _ :: _, 0 => false
  | c :: cs, n + 1 => decide (c < n + 1) && validChoices cs n

/-- `MusicCog.shuffle`, restricted to its effect on the player state: it
deep-copies the queue, runs the pop-at-random-index loop on the copy, and
assigns the finished list back to `player.queue` in one replacement. -/
def shuffle (cs : List Nat) (p : PlayerState) : PlayerState :=
  { p with queue := fyShuffle cs p.queue }

/-! ## Concrete songs used by witnesses and counterexamples -/

/-- A concrete song used in concrete evaluations. -/
def songA : Song := ⟨"id-A", "Alpha", "Artist1"⟩

/-- A second concrete song used in concrete evaluations. -/
def songB : Song := ⟨"id-B", "Beta", "Artist2"⟩

/-- A third concrete song used in concrete evaluations. -/
def songC : Song := ⟨"id-C", "Gamma", "Artist3"⟩

/-- Modelled from the spec: the PlayerRegistry (`data.guild_data`, in the
`data` module which is not under `src/`) lazily creates one `Player()`
instance per guild on first access; each creation runs `Player.__init__`,
so the player obtained for any guild is the one `Player.init` produces. -/
def guildPlayer (guild_id : Nat) : Player := Player.init

/-- A concrete environment: voice client present and connected, transport
already streaming, autoplay disabled. -/
def envPlaying : Env := ⟨true, true, true, true, .NONE, [], fun _ => []⟩

/-- A concrete environment: voice client present and connected, transport
idle, autoplay mode Similar, catalog with no candidates. -/
def envSimilarEmpty : Env := ⟨true, true, false, true, .SIMILAR, [], fun _ => []⟩

/-! ## Theorems for the claims -/

/-- C1: the claim says Player instances for distinct guilds have
independently allocated state.  The code violates it: `Player.__init__`
executes `self._data = _default_data`, aliasing the single module-level
dict, so appending a song through guild 1's player is observed through
guild 2's player, whose queue was empty beforehand. -/
theorem player_init_shared_state :
    (guildPlayer 2).getQueue initStore = [] ∧
    (guildPlayer 2).getQueue ((guildPlayer 1).queueAppend songA initStore) = [songA] :=
  ⟨rfl, rfl⟩

/-- C2: the claim says the stop command leaves the queue exactly as it
was.  The code violates it: it sets `current_song = None` and then executes
`queue.insert(0, player.current_song)`, prepending the just-cleared `None`
to the queue, so a queue `[songB]` becomes `[None, songB]`. -/
theorem stop_prepends_none :
    stopCommand ⟨some songA, 0, [songB]⟩ =
      { current_song := none, queue := [none, some songB] } ∧
    (stopCommand ⟨some songA, 0, [songB]⟩).queue ≠ [songB].map some := by
  refine ⟨rfl, ?_⟩
  decide

/-- C3 counterexample: the claim says transient connect failures are
retried up to 5 times with exponential backoff, returning a session on the
first success.  With a schedule whose first attempt fails transiently
(timeout) and whose every later attempt would succeed, the code performs
exactly one connect attempt (preceded only by the fixed 1-unit sleep, with
no backoff delay) and returns no session, where the claim demands a session
obtained on the second of up to 5 attempts. -/
theorem get_voice_client_no_retry :
    get_voice_client false true true true true
        (fun i => match i with | 0 => .timeout | _ + 1 => .success) =
      (none, [.sleep 1, .connectAttempt, .errTimeout]) ∧
    countAttempts (get_voice_client false true true true true
        (fun i => match i with | 0 => .timeout | _ + 1 => .success)).2 = 1 :=
  ⟨rfl, rfl⟩

/-- C3 (amended): `get_voice_client` returns an existing client untouched;
otherwise, when connection is requested by a user in a voice channel and
the bot has connect and speak permission, it makes exactly one connect
attempt, preceded by a fixed 1-time-unit delay, and returns a session iff
that single attempt succeeds — any failure aborts immediately with no
retry and no backoff. -/
theorem get_voice_client_single_attempt (e sc uv cc cs : Bool)
    (sched : Nat → ConnectOutcome) :
    (e = true → get_voice_client e sc uv cc cs sched = (some (), [])) ∧
    (e = false → sc = true → uv = true → cc = true → cs = true →
      countAttempts (get_voice_client e sc uv cc cs sched).2 = 1 ∧
      (get_voice_client e sc uv cc cs sched).2.head? = some (.sleep 1) ∧
      ((get_voice_client e sc uv cc cs sched).1 = some () ↔
        sched 0 = .success)) := by
  constructor
  · rintro rfl
    rfl
  · rintro rfl rfl rfl rfl rfl
    cases h : sched 0 <;> simp [get_voice_client, countAttempts, h]

/-- C3 witness: the single-attempt characterisation evaluated on a
schedule of client errors. -/
theorem get_voice_client_single_attempt_w :
    countAttempts (get_voice_client false true true true true
        (fun _ => .clientError)).2 = 1 ∧
    (get_voice_client false true true true true
        (fun _ => .clientError)).2.head? = some (.sleep 1) ∧
    ((get_voice_client false true true true true
        (fun _ => .clientError)).1 = some () ↔
      (fun _ => ConnectOutcome.clientError) 0 = .success) :=
  (get_voice_client_single_attempt false true true true true
    (fun _ => .clientError)).2 rfl rfl rfl rfl rfl

/-- C4 counterexample: the claim says a transient mid-stream error leads
to reconnection and then a new queue-advance cycle plus a notification.
On the connection-lost error, with the user still in voice and the client
disconnected, the callback's whole trace is the reconnect attempt: it never
schedules `play_audio_queue` and sends no message. -/
theorem playback_finished_error_no_advance :
    playback_finished (some "Not connected to voice") true true false =
      [.reconnectAttempt] ∧
    PFEv.scheduleAdvance ∉
      playback_finished (some "Not connected to voice") true true false := by
  refine ⟨rfl, ?_⟩
  decide

/-- C4 (amended): on completion without error and with the voice client
still connected, `playback_finished` immediately schedules the next
queue-advance cycle; on any playback error it never schedules an advance —
for a connection-lost error with the user still in a voice channel and the
client disconnected it only attempts to re-acquire the voice session, and
it surfaces nothing to the user. -/
theorem playback_finished_policy (error : Option String) (uiv hvc conn : Bool) :
    (error = none → hvc = true → conn = true →
       playback_finished error uiv hvc conn = [.scheduleAdvance]) ∧
    (∀ e, error = some e →
       PFEv.scheduleAdvance ∉ playback_finished error uiv hvc conn) ∧
    (∀ e, error = some e → errIsVoiceLost e = true →
       uiv = true → hvc = true → conn = false →
       playback_finished error uiv hvc conn = [.reconnectAttempt]) := by
  refine ⟨?_, ?_, ?_⟩
  · rintro rfl rfl rfl
    simp [playback_finished]
  · rintro e rfl
    simp only [playback_finished]
    split
    · split <;> simp
    · simp
  · rintro e rfl h rfl rfl rfl
    simp [playback_finished, h]

/-- C4 witness: the advance-policy theorem evaluated at the no-error,
still-connected case. -/
theorem playback_finished_policy_w :
    playback_finished none true true true = [PFEv.scheduleAdvance] :=
  (playback_finished_policy none true true true).1 rfl rfl rfl

/-- C5: when the transport reports it is already playing,
`play_audio_queue` is a no-op — the state (queue, current song, position)
is returned unchanged and no effect is produced, and `stream_track`'s own
guard likewise refuses to start a stream. -/
theorem play_audio_queue_single_flight (fuel : Nat) (env : Env)
    (p : PlayerState) (s : Song)
    (hvc : env.hasVC = true) (hp : env.is_playing = true) :
    play_audio_queue fuel env p = (p, []) ∧
    Ev.startStream s ∉ stream_track env s := by
  constructor
  · cases fuel with
    | zero => rfl
    | succ n => simp [play_audio_queue, hvc, hp]
  · simp only [stream_track, hvc, hp]
    split
    · simp
    · split <;> simp

/-- C5 witness: the single-flight guard evaluated on a concrete playing
environment and a concrete player state. -/
theorem play_audio_queue_single_flight_w :
    play_audio_queue 2 envPlaying ⟨some songA, 0, [songB]⟩ =
      (⟨some songA, 0, [songB]⟩, []) ∧
    Ev.startStream songC ∉ stream_track envPlaying songC :=
  play_audio_queue_single_flight 2 envPlaying ⟨some songA, 0, [songB]⟩ songC
    rfl rfl

/-- C6: `handle_autoplay` returns immediately — no catalog request, no
state change, no message — whenever the queue is non-empty or the mode is
`NONE`; and in every case its resulting queue is either the unchanged input
queue or, only when the input queue was empty, a single appended song. -/
theorem handle_autoplay_empty_only (env : Env) (prev : Option String)
    (p : PlayerState) :
    ((p.queue ≠ [] ∨ env.autoplay_mode = AutoplayMode.NONE) →
       handle_autoplay env prev p = (false, p, [])) ∧
    ((handle_autoplay env prev p).2.1.queue = p.queue ∨
       (p.queue = [] ∧ ∃ s, (handle_autoplay env prev p).2.1.queue = [s])) := by
  constructor
  · intro h
    simp [handle_autoplay, h]
  · by_cases h : p.queue ≠ [] ∨ env.autoplay_mode = AutoplayMode.NONE
    · left
      simp [handle_autoplay, h]
    · push_neg at h
      obtain ⟨hq, _⟩ := h
      simp only [handle_autoplay]
      split
      · left; rfl
      · split
        · left; rfl
        · rename_i s tail heq
          right
          exact ⟨hq, s, by simp [hq]⟩

/-- C6 witness: the non-empty-queue guard evaluated concretely. -/
theorem handle_autoplay_empty_only_w :
    handle_autoplay envSimilarEmpty (some "id-A") ⟨none, 0, [songB]⟩ =
      (false, ⟨none, 0, [songB]⟩, []) :=
  (handle_autoplay_empty_only envSimilarEmpty (some "id-A")
    ⟨none, 0, [songB]⟩).1 (Or.inl (by simp))

/-- C7: with mode Similar and a present previous-track id, the autoplay
fetch is the similarity lookup with exactly that id (and no random lookup);
with no previous-track id and any enabled mode, the fetch is the random
lookup (and no similarity lookup). -/
theorem handle_autoplay_similar_policy (env : Env) (p : PlayerState)
    (pid : String) (hq : p.queue = []) :
    (env.autoplay_mode = AutoplayMode.SIMILAR →
       (handle_autoplay env (some pid) p).2.2.head? =
         some (.apiSimilar (some pid)) ∧
       hasRandomReq (handle_autoplay env (some pid) p).2.2 = false) ∧
    (env.autoplay_mode ≠ AutoplayMode.NONE →
       (handle_autoplay env none p).2.2.head? = some .apiRandom ∧
       hasSimilarReq (handle_autoplay env none p).2.2 = false) := by
  constructor
  · intro hm
    simp only [handle_autoplay, hq, hm]
    cases henv : env.similar_songs (some pid) <;>
      simp [hasRandomReq, henv]
  · intro hm
    simp only [handle_autoplay, hq, hm]
    cases henv : env.random_songs <;>
      simp [hasSimilarReq, henv, hm]

/-- C7 witness: the similarity branch evaluated on a concrete environment
with mode Similar and previous id `"id-A"`. -/
theorem handle_autoplay_similar_policy_w :
    (handle_autoplay envSimilarEmpty (some "id-A") ⟨none, 0, []⟩).2.2.head? =
      some (Ev.apiSimilar (some "id-A")) ∧
    hasRandomReq
      (handle_autoplay envSimilarEmpty (some "id-A") ⟨none, 0, []⟩).2.2 = false :=
  (handle_autoplay_similar_policy envSimilarEmpty ⟨none, 0, []⟩ "id-A" rfl).1 rfl

/-- C9: with the bot connected, if the channel's human occupancy is zero
when the event fires (member count 1: the bot alone) and still zero when
the 10-time-unit grace period elapses, the handler disconnects and clears
the queue and the current song (leaving `current_position` alone); if
occupancy has recovered by then, the player state is returned untouched and
no disconnect happens. -/
theorem idle_timeout_policy (m0 m10 : Nat) (p : PlayerState)
    (h0 : 1 ≤ m0) (h10 : 1 ≤ m10) :
    (m0 - 1 = 0 → m10 - 1 = 0 →
       on_voice_state_update true m0 m10 p =
         ⟨{ p with queue := [], current_song := none }, true, true⟩) ∧
    (m0 - 1 = 0 → m10 - 1 ≠ 0 →
       on_voice_state_update true m0 m10 p = ⟨p, false, true⟩) := by
  constructor
  · intro a b
    have hm0 : m0 = 1 := by omega
    have hm10 : m10 = 1 := by omega
    subst hm0 hm10
    rfl
  · intro a b
    have hm0 : m0 = 1 := by omega
    have hm10 : ¬m10 = 1 := by omega
    subst hm0
    simp [on_voice_state_update, hm10]

/-- C9 witness: occupancy zero at the event and still zero after the grace
period, on a concrete player holding a queue and a current track. -/
theorem idle_timeout_policy_w :
    on_voice_state_update true 1 1 ⟨some songA, 7, [songB, songC]⟩ =
      ⟨⟨none, 7, []⟩, true, true⟩ :=
  (idle_timeout_policy 1 1 ⟨some songA, 7, [songB, songC]⟩
    (by decide) (by decide)).1 rfl rfl

/-- A list is a permutation of the element at any valid index consed onto
the remainder after erasing that index. -/
theorem perm_getElem_cons_eraseIdx {α : Type} (q : List α) :
    ∀ (c : Nat) (h : c < q.length), q.Perm (q[c] :: q.eraseIdx c) := by
  induction q with
  | nil =>
    intro c h
    simp at h
  | cons a t ih =>
    intro c h
    cases c with
    | zero => simp
    | succ c =>
      have h' : c < t.length := by simpa using h
      have step := (ih c h').cons a
      simp only [List.getElem_cons_succ, List.eraseIdx_cons_succ]
      exact step.trans (List.Perm.swap _ _ _)

/-- Erasing a valid index shortens the list by one. -/
theorem length_eraseIdx_of_lt {α : Type} {q : List α} {c : Nat}
    (h : c < q.length) : (q.eraseIdx c).length = q.length - 1 := by
  simp [List.length_eraseIdx, h]

/-- Every run of the shuffle loop on a valid RNG-output sequence produces
a permutation of its input (hence preserves the multiset of songs). -/
theorem fyShuffle_perm {α : Type} :
    ∀ (cs : List Nat) (q : List α), validChoices cs q.length = true →
      (fyShuffle cs q).Perm q := by
  intro cs
  induction cs with
  | nil =>
    intro q hv
    cases q with
    | nil => simp [fyShuffle]
    | cons a t => simp [validChoices] at hv
  | cons c cs ih =>
    intro q hv
    cases q with
    | nil => simp [validChoices] at hv
    | cons a t =>
      simp only [validChoices, List.length_cons, Bool.and_eq_true,
        decide_eq_true_eq] at hv
      obtain ⟨hc, hv⟩ := hv
      have hlen : c < (a :: t).length := by simpa using hc
      have hv' : validChoices cs ((a :: t).eraseIdx c).length = true := by
        rw [length_eraseIdx_of_lt hlen]
        simpa using hv
      have ihp := ih ((a :: t).eraseIdx c) hv'
      simp only [fyShuffle, List.getElem?_eq_getElem hlen]
      exact (ihp.cons _).trans (perm_getElem_cons_eraseIdx (a :: t) c hlen).symm

/-- Every permutation of a duplicate-free list is produced by some valid
RNG-output sequence. -/
theorem fyShuffle_surjective {α : Type} [DecidableEq α] :
    ∀ (l q : List α), q.Nodup → l.Perm q →
      ∃ cs, validChoices cs q.length = true ∧ fyShuffle cs q = l := by
  intro l
  induction l with
  | nil =>
    intro q _ hperm
    have hq : q = [] := hperm.symm.eq_nil
    subst hq
    exact ⟨[], rfl, rfl⟩
  | cons a l ih =>
    intro q hnd hperm
    have ha : a ∈ q := hperm.mem_iff.mp (List.mem_cons_self a l)
    have hc : List.indexOf a q < q.length := List.indexOf_lt_length.mpr ha
    have hgetc : q[List.indexOf a q] = a := List.getElem_indexOf hc
    have hq_perm : q.Perm (a :: q.eraseIdx (List.indexOf a q)) := by
      have step := perm_getElem_cons_eraseIdx q _ hc
      rwa [hgetc] at step
    have hl : l.Perm (q.eraseIdx (List.indexOf a q)) :=
      (hperm.trans hq_perm).cons_inv
    have hnd' : (q.eraseIdx (List.indexOf a q)).Nodup :=
      (List.eraseIdx_sublist q _).nodup hnd
    obtain ⟨cs, hvalid, hfy⟩ := ih (q.eraseIdx (List.indexOf a q)) hnd' hl
    refine ⟨List.indexOf a q :: cs, ?_, ?_⟩
    · have hlen1 : q.length = (q.length - 1) + 1 := by
        cases q with
        | nil => simp at ha
        | cons b t => simp
      rw [hlen1]
      simp only [validChoices, Bool.and_eq_true, decide_eq_true_eq]
      constructor
      · omega
      · rw [length_eraseIdx_of_lt hc] at hvalid
        exact hvalid
    · simp only [fyShuffle, List.getElem?_eq_getElem hc, hgetc, hfy]

/-- On a duplicate-free list, distinct valid RNG-output sequences produce
distinct outputs. -/
theorem fyShuffle_injective {α : Type} :
    ∀ (cs₁ cs₂ : List Nat) (q : List α), q.Nodup →
      validChoices cs₁ q.length = true → validChoices cs₂ q.length = true →
      fyShuffle cs₁ q = fyShuffle cs₂ q → cs₁ = cs₂ := by
  intro cs₁
  induction cs₁ with
  | nil =>
    intro cs₂ q _ h1 h2 _
    cases q with
    | cons a t => simp [validChoices] at h1
    | nil =>
      cases cs₂ with
      | nil => rfl
      | cons c cs => simp [validChoices] at h2
  | cons c cs ih =>
    intro cs₂ q hnd h1 h2 heq
    cases q with
    | nil => simp [validChoices] at h1
    | cons a t =>
      cases cs₂ with
      | nil => simp [validChoices] at h2
      | cons c' cs' =>
        simp only [validChoices, List.length_cons, Bool.and_eq_true,
          decide_eq_true_eq] at h1 h2
        obtain ⟨hc, h1⟩ := h1
        obtain ⟨hc', h2⟩ := h2
        have hlc : c < (a :: t).length := by simpa using hc
        have hlc' : c' < (a :: t).length := by simpa using hc'
        simp only [fyShuffle, List.getElem?_eq_getElem hlc,
          List.getElem?_eq_getElem hlc', List.cons.injEq] at heq
        obtain ⟨hhead, htail⟩ := heq
        have hcc : c = c' := (hnd.getElem_inj_iff).mp hhead
        subst hcc
        have hnd' : ((a :: t).eraseIdx c).Nodup :=
          (List.eraseIdx_sublist _ _).nodup hnd
        have hv1 : validChoices cs ((a :: t).eraseIdx c).length = true := by
          rw [length_eraseIdx_of_lt hlc]
          simpa using h1
        have hv2 : validChoices cs' ((a :: t).eraseIdx c).length = true := by
          rw [length_eraseIdx_of_lt hlc]
          simpa using h2
        rw [ih cs' ((a :: t).eraseIdx c) hnd' hv1 hv2 htail]

/-- C8: the shuffle command replaces the queue with a permutation of it in
one assignment: for every valid RNG-output sequence the new queue is a
permutation of the old (multiset preserved, any size ≥ 0) and the current
song is untouched; and on a duplicate-free queue each permutation is
produced by exactly one valid RNG-output sequence — since the loop draws
each `randint(0, len-1)` uniformly, every valid sequence has probability
`1/n!`, so every permutation is equally likely given an unbiased RNG. -/
theorem shuffle_fisher_yates (p : PlayerState) :
    (∀ cs, validChoices cs p.queue.length = true →
       ((shuffle cs p).queue).Perm p.queue ∧
       (shuffle cs p).current_song = p.current_song) ∧
    (p.queue.Nodup → ∀ l, l.Perm p.queue →
       ∃! cs, validChoices cs p.queue.length = true ∧
         (shuffle cs p).queue = l) := by
  constructor
  · intro cs hv
    exact ⟨fyShuffle_perm cs p.queue hv, rfl⟩
  · intro hnd l hl
    obtain ⟨cs, hv, hfy⟩ := fyShuffle_surjective l p.queue hnd hl
    refine ⟨cs, ⟨hv, hfy⟩, ?_⟩
    rintro cs' ⟨hv', hfy'⟩
    refine fyShuffle_injective cs' cs p.queue hnd hv' hv ?_
    show (shuffle cs' p).queue = (shuffle cs p).queue
    rw [hfy']
    exact hfy.symm

/-- C8 witness: a concrete two-song queue shuffled by the RNG outputs
`[1, 0]`. -/
theorem shuffle_fisher_yates_w :
    ((shuffle [1, 0] ⟨none, 0, [songA, songB]⟩).queue).Perm [songA, songB] ∧
    (shuffle [1, 0] ⟨none, 0, [songA, songB]⟩).current_song = none :=
  (shuffle_fisher_yates ⟨none, 0, [songA, songB]⟩).1 [1, 0] (by decide)

/-- An element reported by `getLast?` is a member of the list. -/
theorem mem_of_getLast?_eq {α : Type} {l : List α} {a : α}
    (h : l.getLast? = some a) : a ∈ l := by
  have hmem : a ∈ l.getLast? := Option.mem_def.mpr h
  rcases List.mem_getLast?_eq_getLast hmem with ⟨hne, heq⟩
  rw [heq]
  exact List.getLast_mem hne

/-- `stream_track` never emits a similarity-catalog request. -/
theorem hasSimilarReq_stream_track (env : Env) (s : Song) :
    hasSimilarReq (stream_track env s) = false := by
  simp only [stream_track]
  split_ifs <;> simp [hasSimilarReq]

/-- `stream_track` never emits the playback-ended message. -/
theorem playbackEnded_not_mem_stream_track (env : Env) (s : Song) :
    Ev.uiPlaybackEnded ∉ stream_track env s := by
  simp only [stream_track]
  split_ifs <;> simp

/-- A `play_audio_queue` call that finds a non-empty queue emits no
similarity-catalog request: it pops and streams (or bails out on a guard),
and never reaches the autoplay path. -/
theorem hasSimilarReq_play_nonempty (fuel : Nat) (env : Env) (p : PlayerState)
    (hne : p.queue ≠ []) :
    hasSimilarReq (play_audio_queue fuel env p).2 = false := by
  cases fuel with
  | zero => rfl
  | succ n =>
    cases hvc : env.hasVC with
    | false => simp [play_audio_queue, hvc, hasSimilarReq]
    | true =>
      cases hp : env.is_playing with
      | true => simp [play_audio_queue, hvc, hp, hasSimilarReq]
      | false =>
        cases hq : p.queue with
        | nil => exact absurd hq hne
        | cons s rest =>
          have hst := hasSimilarReq_stream_track env s
          simp [play_audio_queue, hvc, hp, hq, hasSimilarReq] at hst ⊢
          exact hst

/-- A `play_audio_queue` call that finds a non-empty queue never emits the
playback-ended message. -/
theorem playbackEnded_not_mem_play_nonempty (fuel : Nat) (env : Env)
    (p : PlayerState) (hne : p.queue ≠ []) :
    Ev.uiPlaybackEnded ∉ (play_audio_queue fuel env p).2 := by
  cases fuel with
  | zero => simp [play_audio_queue]
  | succ n =>
    cases hvc : env.hasVC with
    | false => simp [play_audio_queue, hvc]
    | true =>
      cases hp : env.is_playing with
      | true => simp [play_audio_queue, hvc, hp]
      | false =>
        cases hq : p.queue with
        | nil => exact absurd hq hne
        | cons s rest =>
          have hst := playbackEnded_not_mem_stream_track env s
          simp [play_audio_queue, hvc, hp, hq] at hst ⊢
          exact hst

/-- An advance on an empty queue with no current song requests a random
track first (Similar is downgraded to Random by the missing previous id)
and never touches the similarity catalog. -/
theorem play_empty_no_cur_head (fuel : Nat) (env : Env) (p : PlayerState)
    (hvc : env.hasVC = true) (hp : env.is_playing = false) (hq : p.queue = [])
    (hcur : p.current_song = none) (hm : env.autoplay_mode ≠ AutoplayMode.NONE) :
    (play_audio_queue (fuel + 1) env p).2.head? = some Ev.apiRandom ∧
    hasSimilarReq (play_audio_queue (fuel + 1) env p).2 = false := by
  cases hr : env.random_songs with
  | nil =>
    have hfst : play_audio_queue (fuel + 1) env p =
        ({ p with current_song := none },
          [Ev.apiRandom, Ev.uiAutoplayFailed, Ev.uiPlaybackEnded]) := by
      simp [play_audio_queue, handle_autoplay, hvc, hp, hq, hcur, hr, hm]
    rw [hfst]
    exact ⟨rfl, rfl⟩
  | cons s0 rest =>
    have hfst : play_audio_queue (fuel + 1) env p =
        ((play_audio_queue fuel env ⟨none, p.current_position, [s0]⟩).1,
          Ev.apiRandom ::
            (play_audio_queue fuel env ⟨none, p.current_position, [s0]⟩).2) := by
      simp [play_audio_queue, handle_autoplay, hvc, hp, hq, hcur, hr, hm]
    rw [hfst]
    refine ⟨rfl, ?_⟩
    have htail := hasSimilarReq_play_nonempty fuel env
      ⟨none, p.current_position, [s0]⟩ (by simp)
    simpa [hasSimilarReq] using htail

/-- C10: on an empty queue with an idle transport (mode Similar), the
previously current song is cleared before the autoplay decision: whenever
the call ends with the playback-ended message, the resulting state has
`current_song = none` and an empty queue, and the immediately following
advance on that state passes no previous-track id, so it performs a random
lookup and no similarity lookup; moreover, when a current song was present,
the first call's autoplay decision receives exactly its id. -/
theorem play_audio_queue_autoplay_prev (fuel : Nat) (env : Env)
    (p : PlayerState)
    (hvc : env.hasVC = true) (hp : env.is_playing = false) (hq : p.queue = [])
    (hm : env.autoplay_mode = AutoplayMode.SIMILAR) :
    ((play_audio_queue (fuel + 1) env p).2.getLast? = some Ev.uiPlaybackEnded →
       (play_audio_queue (fuel + 1) env p).1.current_song = none ∧
       (play_audio_queue (fuel + 1) env p).1.queue = [] ∧
       (play_audio_queue (fuel + 1) env
           (play_audio_queue (fuel + 1) env p).1).2.head? =
         some Ev.apiRandom ∧
       hasSimilarReq (play_audio_queue (fuel + 1) env
           (play_audio_queue (fuel + 1) env p).1).2 = false) ∧
    (∀ s, p.current_song = some s →
       (play_audio_queue (fuel + 1) env p).2.head? =
         some (Ev.apiSimilar (some s.song_id))) := by
  have hm' : env.autoplay_mode ≠ AutoplayMode.NONE := by
    rw [hm]
    exact fun h => nomatch h
  cases hcur : p.current_song with
  | none =>
    cases hr : env.random_songs with
    | nil =>
      have hfst : play_audio_queue (fuel + 1) env p =
          ({ p with current_song := none },
            [Ev.apiRandom, Ev.uiAutoplayFailed, Ev.uiPlaybackEnded]) := by
        simp [play_audio_queue, handle_autoplay, hvc, hp, hq, hcur, hr, hm']
      constructor
      · intro _
        rw [hfst]
        refine ⟨rfl, hq, ?_⟩
        exact play_empty_no_cur_head fuel env _ hvc hp hq rfl hm'
      · intro s hs
        exact absurd hs (by simp)
    | cons s0 rest =>
      have hfst : play_audio_queue (fuel + 1) env p =
          ((play_audio_queue fuel env ⟨none, p.current_position, [s0]⟩).1,
            Ev.apiRandom ::
              (play_audio_queue fuel env ⟨none, p.current_position, [s0]⟩).2) := by
        simp [play_audio_queue, handle_autoplay, hvc, hp, hq, hcur, hr, hm']
      constructor
      · intro hlast
        exfalso
        rw [hfst] at hlast
        have hmem := mem_of_getLast?_eq hlast
        have hnotin := playbackEnded_not_mem_play_nonempty fuel env
          ⟨none, p.current_position, [s0]⟩ (by simp)
        simp at hmem
        exact hnotin hmem
      · intro s hs
        exact absurd hs (by simp)
  | some s =>
    cases hr : env.similar_songs (some s.song_id) with
    | nil =>
      have hfst : play_audio_queue (fuel + 1) env p =
          ({ p with current_song := none },
            [Ev.apiSimilar (some s.song_id), Ev.uiAutoplayFailed,
              Ev.uiPlaybackEnded]) := by
        simp [play_audio_queue, handle_autoplay, hvc, hp, hq, hcur, hr, hm]
      constructor
      · intro _
        rw [hfst]
        refine ⟨rfl, hq, ?_⟩
        exact play_empty_no_cur_head fuel env _ hvc hp hq rfl hm'
      · intro s' hs
        have hss : s = s' := by
          injection hs
        rw [hfst, ← hss]
        rfl
    | cons s0 rest =>
      have hfst : play_audio_queue (fuel + 1) env p =
          ((play_audio_queue fuel env ⟨none, p.current_position, [s0]⟩).1,
            Ev.apiSimilar (some s.song_id) ::
              (play_audio_queue fuel env ⟨none, p.current_position, [s0]⟩).2) := by
        simp [play_audio_queue, handle_autoplay, hvc, hp, hq, hcur, hr, hm]
      constructor
      · intro hlast
        exfalso
        rw [hfst] at hlast
        have hmem := mem_of_getLast?_eq hlast
        have hnotin := playbackEnded_not_mem_play_nonempty fuel env
          ⟨none, p.current_position, [s0]⟩ (by simp)
        simp at hmem
        exact hnotin hmem
      · intro s' hs
        have hss : s = s' := by
          injection hs
        rw [hfst, ← hss]
        rfl

/-- C10 witness: a concrete advance with mode Similar, a current song,
an empty queue and a candidate-less catalog: the call ends with the
playback-ended message, clears the current song, and the follow-up
advance requests a random track and never the similarity catalog. -/
theorem play_audio_queue_autoplay_prev_w :
    ((play_audio_queue 1 envSimilarEmpty ⟨some songA, 0, []⟩).1.current_song =
        none ∧
      (play_audio_queue 1 envSimilarEmpty ⟨some songA, 0, []⟩).1.queue = [] ∧
      (play_audio_queue 1 envSimilarEmpty
          (play_audio_queue 1 envSimilarEmpty ⟨some songA, 0, []⟩).1).2.head? =
        some Ev.apiRandom ∧
      hasSimilarReq (play_audio_queue 1 envSimilarEmpty
          (play_audio_queue 1 envSimilarEmpty ⟨some songA, 0, []⟩).1).2 =
        false) ∧
    (play_audio_queue 1 envSimilarEmpty ⟨some songA, 0, []⟩).2.head? =
      some (Ev.apiSimilar (some "id-A")) :=
  have t := play_audio_queue_autoplay_prev 0 envSimilarEmpty
    ⟨some songA, 0, []⟩ rfl rfl rfl rfl
  ⟨t.1 (by decide), t.2 songA rfl⟩

end Discodrome
